import Mathlib

/- Verification of the boids flocking core of src/main.rs.

   The program's f32 arithmetic is modelled over the real numbers; the glam
   vector operations (dot, length, distance, clamp_length, clamp_length_max,
   componentwise clamp) are reproduced from their definitions.  Positions are
   modelled as 2D vectors: the program stores them in a 3D translation whose
   z component is always 0 and is never read by the core logic.

   A second model with Option-valued scalars (none standing for an IEEE NaN)
   appears further down; it captures NaN creation and propagation, which the
   real-number model cannot express. -/

namespace Boids

/-- 2D vector of reals, modelling glam's Vec2 of f32 components. -/
structure Vec2 where
  x : ℝ
  y : ℝ

instance : Add Vec2 := ⟨fun a b => ⟨a.x + b.x, a.y + b.y⟩⟩

instance : Sub Vec2 := ⟨fun a b => ⟨a.x - b.x, a.y - b.y⟩⟩

instance : Neg Vec2 := ⟨fun a => ⟨-a.x, -a.y⟩⟩

instance : SMul ℝ Vec2 := ⟨fun r v => ⟨r * v.x, r * v.y⟩⟩

noncomputable instance : HDiv Vec2 ℝ Vec2 := ⟨fun v r => ⟨v.x / r, v.y / r⟩⟩

instance : Zero Vec2 := ⟨⟨0, 0⟩⟩

@[simp] theorem Vec2.add_def (a b : Vec2) : a + b = ⟨a.x + b.x, a.y + b.y⟩ := rfl

@[simp] theorem Vec2.sub_def (a b : Vec2) : a - b = ⟨a.x - b.x, a.y - b.y⟩ := rfl

@[simp] theorem Vec2.neg_def (a : Vec2) : -a = ⟨-a.x, -a.y⟩ := rfl

@[simp] theorem Vec2.smul_def (r : ℝ) (v : Vec2) : r • v = ⟨r * v.x, r * v.y⟩ := rfl

@[simp] theorem Vec2.divr_def (v : Vec2) (r : ℝ) : v / r = Vec2.mk (v.x / r) (v.y / r) := rfl

@[simp] theorem Vec2.zero_def : (0 : Vec2) = ⟨0, 0⟩ := rfl

/-- glam Vec2::dot. -/
def Vec2.dot (a b : Vec2) : ℝ := a.x * b.x + a.y * b.y

/-- glam Vec2::length_squared (dot of the vector with itself). -/
def Vec2.length_squared (v : Vec2) : ℝ := Vec2.dot v v

/-- glam Vec2::length. -/
noncomputable def Vec2.length (v : Vec2) : ℝ := Real.sqrt v.length_squared

/-- glam Vec2::distance (length of the difference). -/
noncomputable def Vec2.distance (a b : Vec2) : ℝ := (a - b).length

/-- glam Vec2::clamp_length_max: scale the vector down to length mx when it is
    longer than mx, leave it unchanged otherwise. -/
noncomputable def Vec2.clamp_length_max (v : Vec2) (mx : ℝ) : Vec2 :=
  let length_sq := v.length_squared
  if length_sq > mx * mx then (mx / Real.sqrt length_sq) • v else v

/-- glam Vec2::clamp_length: scale the vector up to length mn when shorter than
    mn, down to mx when longer than mx, leave it unchanged otherwise.
    Boundary of the real-number embedding: on the zero vector with mn > 0 the
    f32 code computes (mn / 0) * 0 = inf * 0 = NaN, while real division by
    zero yields 0 here; that case is treated in the NaN-tracking
    Vec2F.clamp_length below, and every real-model theorem about this clamp
    assumes a nonzero input vector. -/
noncomputable def Vec2.clamp_length (v : Vec2) (mn mx : ℝ) : Vec2 :=
  let length_sq := v.length_squared
  if length_sq < mn * mn then (mn / Real.sqrt length_sq) • v
  else if length_sq > mx * mx then (mx / Real.sqrt length_sq) • v
  else v

/-- glam Vec2::clamp: componentwise clamp, self.max(lo).min(hi). -/
noncomputable def Vec2.clamp (v lo hi : Vec2) : Vec2 :=
  ⟨min (max v.x lo.x) hi.x, min (max v.y lo.y) hi.y⟩

/-- The Parameters resource (src/main.rs lines 13-33). -/
structure Parameters where
  window_width : ℝ
  window_height : ℝ
  number_of_boids : ℕ
  view_distance : ℝ
  cohesion_force : ℝ
  separation_force : ℝ
  separation_bias : ℝ
  alignment_bias : ℝ
  alignment_force : ℝ
  steering_force : ℝ
  fidelity : ℝ
  min_speed : ℝ
  max_speed : ℝ
  bounce_off_walls : Bool

/-- Rust Range of f32, lo..hi, as a pair. -/
noncomputable def Parameters.window_x_range (p : Parameters) : ℝ × ℝ :=
  (-p.window_width / 2, p.window_width / 2)

/-- Rust Range of f32, lo..hi, as a pair. -/
noncomputable def Parameters.window_y_range (p : Parameters) : ℝ × ℝ :=
  (-p.window_height / 2, p.window_height / 2)

/-- Rust Range::contains for a half-open range lo..hi. -/
def range_contains (r : ℝ × ℝ) (v : ℝ) : Prop := r.1 ≤ v ∧ v < r.2

noncomputable instance (r : ℝ × ℝ) (v : ℝ) : Decidable (range_contains r v) :=
  inferInstanceAs (Decidable (_ ∧ _))

/-- Parameters::max_position, exactly as written in the source (lines 66-68):
    both components use window_width. -/
noncomputable def Parameters.max_position (p : Parameters) : Vec2 :=
  ⟨p.window_width / 2, p.window_width / 2⟩

/-- Parameters::min_position, exactly as written in the source (lines 70-72):
    both components use window_height. -/
noncomputable def Parameters.min_position (p : Parameters) : Vec2 :=
  ⟨-p.window_height / 2, -p.window_height / 2⟩

/-- The Boid component: velocity and weight. -/
structure Boid where
  velocity : Vec2
  weight : ℝ

/-- The Calculations component: the per-agent interaction accumulator. -/
structure Calculations where
  neighbours : ℤ
  cohesion : Vec2
  separation : Vec2
  alignment : Vec2

/-- Calculations::default (all fields zero). -/
def Calculations.zeroed : Calculations := ⟨0, ⟨0, 0⟩, ⟨0, 0⟩, ⟨0, 0⟩⟩

/-- Calculations::reset: set every field back to zero (lines 98-105). -/
def Calculations.reset (_c : Calculations) : Calculations := Calculations.zeroed

/-- One simulated entity: its Transform translation (x, y; z is always 0),
    its Calculations accumulator and its Boid component. -/
structure Agent where
  pos : Vec2
  calcs : Calculations
  boid : Boid

/-- Separation factor, line 172: 1.0 / distance.powf(separation_bias). -/
noncomputable def separation_factor (distance bias : ℝ) : ℝ :=
  1 / distance ^ bias

/-- Alignment factor, line 180:
    bias.powf(similarity) / if bias > 1.0 then bias else 1.0 / bias. -/
noncomputable def alignment_factor (bias similarity : ℝ) : ℝ :=
  bias ^ similarity / if bias > 1 then bias else 1 / bias

/-- The body of the pairwise loop of flock (lines 158-195) for one pair,
    given the random draw from gen_range(0.0..=1.0).
    Boundary of the real-number embedding: when an interacting velocity has
    zero magnitude the f32 similarity of lines 175-176 is 0/0 = NaN, while
    real division by zero yields 0 here; that error path is modelled
    faithfully by interact_pairF below, and every real-model theorem about
    the aggregate step of flock assumes nonzero start-of-step velocities. -/
noncomputable def interact_pair (p : Parameters) (draw : ℝ) (a1 a2 : Agent) :
    Agent × Agent :=
  if draw > p.fidelity then (a1, a2)
  else
    let distance := Vec2.distance a1.pos a2.pos
    if distance > p.view_distance then (a1, a2)
    else
      let distance := max distance 0.001
      let p1 := a1.pos
      let p2 := a2.pos
      let sep := separation_factor distance p.separation_bias
      let similarity := Vec2.dot a1.boid.velocity a2.boid.velocity /
        (a1.boid.velocity.length * a2.boid.velocity.length)
      let align := alignment_factor p.alignment_bias similarity
      let b1w := a1.boid.weight ^ 2 / a2.boid.weight ^ 2
      let b2w := a2.boid.weight ^ 2 / a1.boid.weight ^ 2
      ({ a1 with calcs :=
          ⟨a1.calcs.neighbours + 1,
           a1.calcs.cohesion + b2w • p2,
           a1.calcs.separation + (sep * b2w) • (p1 - p2),
           a1.calcs.alignment + (align * b2w) • a2.boid.velocity⟩ },
       { a2 with calcs :=
          ⟨a2.calcs.neighbours + 1,
           a2.calcs.cohesion + b1w • p1,
           a2.calcs.separation + (sep * b1w) • (p2 - p1),
           a2.calcs.alignment + (align * b1w) • a1.boid.velocity⟩ })

/-- All unordered index pairs i < j of agents, in the order the combination
    iterator visits them: (0,1), (0,2), ..., (1,2), ... -/
def pair_indices (n : ℕ) : List (ℕ × ℕ) :=
  (List.range n).flatMap fun i => ((List.range n).drop (i + 1)).map fun j => (i, j)

/-- Apply interact_pair to the agents at index pair ij of the list. -/
noncomputable def apply_pair (p : Parameters) (draw : ℝ) (agents : List Agent)
    (ij : ℕ × ℕ) : List Agent :=
  match agents.get? ij.1, agents.get? ij.2 with
  | some a1, some a2 =>
    let r := interact_pair p draw a1 a2
    (agents.set ij.1 r.1).set ij.2 r.2
  | _, _ => agents

/-- The pairwise scan of flock (lines 157-195): every unordered pair is
    visited once; the k-th visited pair consumes the k-th random draw. -/
noncomputable def pair_phase (p : Parameters) (draws : ℕ → ℝ)
    (agents : List Agent) : List Agent :=
  ((pair_indices agents.length).enum).foldl
    (fun acc kij => apply_pair p (draws kij.1) acc kij.2) agents

/-- The steering sum of the aggregation loop (lines 202-209), before the final
    speed clamp: old velocity plus the three weighted, magnitude-capped
    steering contributions. -/
noncomputable def steered_velocity (p : Parameters) (a : Agent) : Vec2 :=
  let cohesion :=
    -((a.calcs.cohesion / (a.calcs.neighbours : ℝ)).clamp_length_max p.steering_force)
  let separation := a.calcs.separation.clamp_length_max p.steering_force
  let alignment := a.calcs.alignment.clamp_length_max p.steering_force
  a.boid.velocity + p.cohesion_force • cohesion + p.separation_force • separation +
    p.alignment_force • alignment

/-- The per-agent aggregation step of flock (lines 197-212): agents with no
    recorded neighbour are skipped; otherwise the steering sum is formed, the
    speed clamp applied, and the accumulator reset. -/
noncomputable def aggregate (p : Parameters) (a : Agent) : Agent :=
  if a.calcs.neighbours ≤ 0 then a
  else
    { a with
      boid := { a.boid with
        velocity := (steered_velocity p a).clamp_length p.min_speed p.max_speed },
      calcs := a.calcs.reset }

/-- The flock system (lines 156-213): the pairwise scan followed by the
    per-agent aggregation. -/
noncomputable def flock (p : Parameters) (draws : ℕ → ℝ)
    (agents : List Agent) : List Agent :=
  (pair_phase p draws agents).map (aggregate p)

/-- f32::signum restricted to non-NaN inputs; the reals have no negative
    zero, so signum 0 = 1 matches signum of positive zero. -/
noncomputable def signum (v : ℝ) : ℝ := if v < 0 then -1 else 1

/-- The x-axis half of the handle_walls loop body (lines 244-251): when the
    x position is outside the window x range and the x velocity has the same
    signum, negate the x velocity (bounce mode) or the x position (wrap
    mode). -/
noncomputable def wall_x (p : Parameters) (a : Agent) : Agent :=
  if ¬ range_contains p.window_x_range a.pos.x ∧
      signum a.boid.velocity.x = signum a.pos.x then
    if p.bounce_off_walls then
      { a with boid := { a.boid with
          velocity := ⟨-a.boid.velocity.x, a.boid.velocity.y⟩ } }
    else { a with pos := ⟨-a.pos.x, a.pos.y⟩ }
  else a

/-- The y-axis half of the handle_walls loop body (lines 252-259). -/
noncomputable def wall_y (p : Parameters) (a : Agent) : Agent :=
  if ¬ range_contains p.window_y_range a.pos.y ∧
      signum a.boid.velocity.y = signum a.pos.y then
    if p.bounce_off_walls then
      { a with boid := { a.boid with
          velocity := ⟨a.boid.velocity.x, -a.boid.velocity.y⟩ } }
    else { a with pos := ⟨a.pos.x, -a.pos.y⟩ }
  else a

/-- The body of handle_walls (lines 242-261) for one agent: the x-axis check
    runs first, then the y-axis check on its result. -/
noncomputable def handle_walls_agent (p : Parameters) (a : Agent) : Agent :=
  wall_y p (wall_x p a)

/-- The handle_walls system (lines 242-261). -/
noncomputable def handle_walls (p : Parameters) (agents : List Agent) : List Agent :=
  agents.map (handle_walls_agent p)

/-- spawn_boids (lines 119-154): spawns how_many new agents; their random
    position, velocity and weight are abstracted as a supply mk of fresh
    agents indexed by spawn order. -/
def spawn_boids (how_many : ℕ) (mk : ℕ → Agent) : List Agent :=
  (List.range how_many).map mk

/-- adjust_number_of_boids (lines 215-240): when the current count is below
    the target, spawn the difference; when above, despawn every entity whose
    iteration index is at least the target (keeping the first target many);
    otherwise do nothing. -/
def adjust_number_of_boids (p : Parameters) (mk : ℕ → Agent)
    (agents : List Agent) : List Agent :=
  let count := agents.length
  if count < p.number_of_boids then
    agents ++ spawn_boids (p.number_of_boids - count) mk
  else if p.number_of_boids < count then agents.take p.number_of_boids
  else agents

/-- window_resize (lines 414-433): on a resize event to w x h, if the stored
    extent differs, store the new extent and clamp every agent's translation
    between min_position and max_position. -/
noncomputable def window_resize (p : Parameters) (w h : ℝ)
    (agents : List Agent) : Parameters × List Agent :=
  if p.window_width = w ∧ p.window_height = h then (p, agents)
  else
    let q := { p with window_width := w, window_height := h }
    (q, agents.map fun a =>
      { a with pos := a.pos.clamp q.min_position q.max_position })

/- ==================== NaN-tracking model of flock ====================

   Velocity scalars are Option values: some r is an ordinary finite f32
   value, none stands for an IEEE NaN.  The operations below follow the
   IEEE 754 rules on the paths the program exercises: every arithmetic
   operation with a NaN operand yields NaN (with the pow special cases
   pow(1, NaN) = 1 and pow(NaN, 0) = 1), 0/0 yields NaN, every ordered
   comparison with a NaN operand is false, and f32::max ignores a NaN
   operand.  Infinities are not modelled as a separate value: in the program
   a divisor can vanish only in the cosine similarity, where the numerator
   vanishes with it (0/0 = NaN), and in the clamp rescale of a zero vector,
   where the resulting infinity is immediately multiplied by the zero
   components (inf * 0 = NaN); in both places the f32 result that reaches
   the rest of the computation is NaN, which fdiv's none reproduces.
   Positions and weights stay plain reals: within one flock run they are
   never written and cannot be NaN. -/

/-- An f32 scalar: some r is finite, none is NaN. -/
abbrev F32 := Option ℝ

/-- f32 addition with NaN propagation. -/
def fadd : F32 → F32 → F32
  | some a, some b => some (a + b)
  | _, _ => none

/-- f32 multiplication with NaN propagation (0 * NaN is NaN). -/
def fmul : F32 → F32 → F32
  | some a, some b => some (a * b)
  | _, _ => none

/-- f32 division: NaN operands give NaN; a zero divisor is also mapped to
    NaN, which matches what the f32 computation propagates on both zero-
    divisor paths of the program (0/0 directly, and the clamp rescale of a
    zero vector whose infinity is immediately multiplied by 0). -/
noncomputable def fdiv : F32 → F32 → F32
  | some a, some b => if b = 0 then none else some (a / b)
  | _, _ => none

/-- f32 negation. -/
def fneg : F32 → F32
  | some a => some (-a)
  | none => none

/-- f32 sqrt: NaN for NaN or negative inputs. -/
noncomputable def fsqrt : F32 → F32
  | some a => if a < 0 then none else some (Real.sqrt a)
  | none => none

/-- f32 powf (for the nonnegative bases the program uses), with the IEEE
    special cases pow(1, NaN) = 1 and pow(NaN, 0) = 1. -/
noncomputable def fpow : F32 → F32 → F32
  | some b, some s => some (b ^ s)
  | some b, none => if b = 1 then some 1 else none
  | none, some s => if s = 0 then some 1 else none
  | none, none => none

/-- f32 strict less-than: false whenever an operand is NaN. -/
noncomputable def flt : F32 → F32 → Bool
  | some a, some b => decide (a < b)
  | _, _ => false

/-- f32 strict greater-than: false whenever an operand is NaN. -/
noncomputable def fgt (a b : F32) : Bool := flt b a

/-- glam Vec2 with NaN-trackable components. -/
structure Vec2F where
  x : F32
  y : F32

/-- Vec2 addition, componentwise. -/
def Vec2F.add (a b : Vec2F) : Vec2F := ⟨fadd a.x b.x, fadd a.y b.y⟩

/-- Vec2 * f32 scalar, componentwise. -/
def Vec2F.smul (s : F32) (v : Vec2F) : Vec2F := ⟨fmul s v.x, fmul s v.y⟩

/-- glam Vec2::dot. -/
def Vec2F.dot (a b : Vec2F) : F32 := fadd (fmul a.x b.x) (fmul a.y b.y)

/-- glam Vec2::length_squared. -/
def Vec2F.length_squared (v : Vec2F) : F32 := Vec2F.dot v v

/-- glam Vec2::length. -/
noncomputable def Vec2F.length (v : Vec2F) : F32 := fsqrt v.length_squared

/-- glam Vec2::clamp_length_max over NaN-trackable vectors: the comparison
    with a NaN length_squared is false, so a NaN vector passes unchanged. -/
noncomputable def Vec2F.clamp_length_max (v : Vec2F) (mx : ℝ) : Vec2F :=
  let length_sq := v.length_squared
  if fgt length_sq (some (mx * mx)) then
    Vec2F.smul (fdiv (some mx) (fsqrt length_sq)) v
  else v

/-- glam Vec2::clamp_length over NaN-trackable vectors. -/
noncomputable def Vec2F.clamp_length (v : Vec2F) (mn mx : ℝ) : Vec2F :=
  let length_sq := v.length_squared
  if flt length_sq (some (mn * mn)) then
    Vec2F.smul (fdiv (some mn) (fsqrt length_sq)) v
  else if fgt length_sq (some (mx * mx)) then
    Vec2F.smul (fdiv (some mx) (fsqrt length_sq)) v
  else v

/-- Boid component with NaN-trackable velocity. -/
structure BoidF where
  velocity : Vec2F
  weight : ℝ

/-- Calculations accumulator: the alignment sum is built from velocities and
    can hold NaN; the other sums are built from positions and stay real. -/
structure CalculationsF where
  neighbours : ℤ
  cohesion : Vec2
  separation : Vec2
  alignment : Vec2F

/-- The all-zero accumulator. -/
def CalculationsF.zeroed : CalculationsF := ⟨0, ⟨0, 0⟩, ⟨0, 0⟩, ⟨some 0, some 0⟩⟩

/-- An entity in the NaN-tracking model. -/
structure AgentF where
  pos : Vec2
  calcs : CalculationsF
  boid : BoidF

/-- Lift a real vector into the NaN-tracking model. -/
def liftV (v : Vec2) : Vec2F := ⟨some v.x, some v.y⟩

/-- The pairwise loop body of flock (lines 158-195) in the NaN-tracking
    model.  The cosine similarity of lines 175-176 is a raw division of the
    dot product by the product of the lengths, with no fallback. -/
noncomputable def interact_pairF (p : Parameters) (draw : ℝ) (a1 a2 : AgentF) :
    AgentF × AgentF :=
  if draw > p.fidelity then (a1, a2)
  else
    let distance := Vec2.distance a1.pos a2.pos
    if distance > p.view_distance then (a1, a2)
    else
      let distance := max distance 0.001
      let p1 := a1.pos
      let p2 := a2.pos
      let sep := separation_factor distance p.separation_bias
      let similarity := fdiv (Vec2F.dot a1.boid.velocity a2.boid.velocity)
        (fmul a1.boid.velocity.length a2.boid.velocity.length)
      let align := fdiv (fpow (some p.alignment_bias) similarity)
        (some (if p.alignment_bias > 1 then p.alignment_bias else 1 / p.alignment_bias))
      let b1w := a1.boid.weight ^ 2 / a2.boid.weight ^ 2
      let b2w := a2.boid.weight ^ 2 / a1.boid.weight ^ 2
      ({ a1 with calcs :=
          ⟨a1.calcs.neighbours + 1,
           a1.calcs.cohesion + b2w • p2,
           a1.calcs.separation + (sep * b2w) • (p1 - p2),
           Vec2F.add a1.calcs.alignment
             (Vec2F.smul (fmul align (some b2w)) a2.boid.velocity)⟩ },
       { a2 with calcs :=
          ⟨a2.calcs.neighbours + 1,
           a2.calcs.cohesion + b1w • p1,
           a2.calcs.separation + (sep * b1w) • (p2 - p1),
           Vec2F.add a2.calcs.alignment
             (Vec2F.smul (fmul align (some b1w)) a1.boid.velocity)⟩ })

/-- Apply interact_pairF at an index pair. -/
noncomputable def apply_pairF (p : Parameters) (draw : ℝ) (agents : List AgentF)
    (ij : ℕ × ℕ) : List AgentF :=
  match agents.get? ij.1, agents.get? ij.2 with
  | some a1, some a2 =>
    let r := interact_pairF p draw a1 a2
    (agents.set ij.1 r.1).set ij.2 r.2
  | _, _ => agents

/-- The pairwise scan of flock in the NaN-tracking model. -/
noncomputable def pair_phaseF (p : Parameters) (draws : ℕ → ℝ)
    (agents : List AgentF) : List AgentF :=
  ((pair_indices agents.length).enum).foldl
    (fun acc kij => apply_pairF p (draws kij.1) acc kij.2) agents

/-- The per-agent aggregation step of flock (lines 197-212) in the
    NaN-tracking model. -/
noncomputable def aggregateF (p : Parameters) (a : AgentF) : AgentF :=
  if a.calcs.neighbours ≤ 0 then a
  else
    let cohesion :=
      -((a.calcs.cohesion / (a.calcs.neighbours : ℝ)).clamp_length_max p.steering_force)
    let separation := a.calcs.separation.clamp_length_max p.steering_force
    let alignment := a.calcs.alignment.clamp_length_max p.steering_force
    let v := Vec2F.add
      (Vec2F.add
        (Vec2F.add a.boid.velocity (liftV (p.cohesion_force • cohesion)))
        (liftV (p.separation_force • separation)))
      (Vec2F.smul (some p.alignment_force) alignment)
    { a with
      boid := { a.boid with velocity := v.clamp_length p.min_speed p.max_speed },
      calcs := CalculationsF.zeroed }

/-- The flock system in the NaN-tracking model. -/
noncomputable def flockF (p : Parameters) (draws : ℕ → ℝ)
    (agents : List AgentF) : List AgentF :=
  (pair_phaseF p draws agents).map (aggregateF p)

/-- Parameters::default (lines 35-54). -/
noncomputable def default_params : Parameters where
  window_width := 100
  window_height := 100
  number_of_boids := 512
  view_distance := 75
  cohesion_force := 2.5
  separation_force := 1.8
  separation_bias := 1.1
  alignment_force := 1.1
  alignment_bias := 1.5
  steering_force := 0.8
  fidelity := 0.9
  min_speed := 25
  max_speed := 100
  bounce_off_walls := false

/-- Concrete parameter set for the C1 instances: fidelity 1, only the
    cohesion force active, speed band [1, 100], both biases 1. -/
noncomputable def params_C1 : Parameters :=
  { default_params with
    fidelity := 1
    cohesion_force := 1
    separation_force := 0
    alignment_force := 0
    steering_force := 10
    separation_bias := 1
    alignment_bias := 1
    min_speed := 1
    max_speed := 100 }

/-- Concrete parameter set for the C4 instances: params_C1 at fidelity 0. -/
noncomputable def params_C4 : Parameters := { params_C1 with fidelity := 0 }

/-- An accumulator is healthy when it is either all zero or has recorded at
    least one neighbour. -/
def calcs_ok (a : Agent) : Prop :=
  a.calcs = Calculations.zeroed ∨ 1 ≤ a.calcs.neighbours

/- ==================== helper lemmas ==================== -/

theorem sqrt_four : Real.sqrt 4 = 2 := by
  rw [show (4:ℝ) = 2 ^ 2 by norm_num, Real.sqrt_sq (by norm_num)]

theorem sqrt_sixteen : Real.sqrt 16 = 4 := by
  rw [show (16:ℝ) = 4 ^ 2 by norm_num, Real.sqrt_sq (by norm_num)]

theorem Vec2.ne_zero_iff (v : Vec2) : v ≠ 0 ↔ (v.x ≠ 0 ∨ v.y ≠ 0) := by
  cases v with
  | mk x y =>
    simp only [Vec2.zero_def, ne_eq, Vec2.mk.injEq]
    tauto

theorem Vec2.length_squared_pos (v : Vec2) (hv : v ≠ 0) : 0 < v.length_squared := by
  rcases (Vec2.ne_zero_iff v).mp hv with h | h
  · unfold Vec2.length_squared Vec2.dot
    nlinarith [mul_self_nonneg v.y, mul_self_pos.mpr h]
  · unfold Vec2.length_squared Vec2.dot
    nlinarith [mul_self_nonneg v.x, mul_self_pos.mpr h]

theorem Vec2.length_smul (t : ℝ) (v : Vec2) : (t • v).length = |t| * v.length := by
  unfold Vec2.length Vec2.length_squared Vec2.dot
  simp only [Vec2.smul_def]
  rw [show t * v.x * (t * v.x) + t * v.y * (t * v.y) =
    t ^ 2 * (v.x * v.x + v.y * v.y) by ring]
  rw [Real.sqrt_mul (sq_nonneg t), Real.sqrt_sq_eq_abs]

/-- Behaviour of glam's clamp_length on a nonzero vector with sane speed
    bounds: the result's length lands in [mn, mx], and the result is a
    positive rescaling of the input, upward when it was too short and
    downward when too long. -/
theorem clamp_length_spec (v : Vec2) (mn mx : ℝ) (h0 : 0 ≤ mn) (h1 : mn ≤ mx)
    (h2 : 0 < mx) (hv : v ≠ 0) :
    mn ≤ (v.clamp_length mn mx).length ∧ (v.clamp_length mn mx).length ≤ mx ∧
    ∃ t : ℝ, 0 < t ∧ v.clamp_length mn mx = t • v ∧
      (v.length < mn → 1 ≤ t) ∧ (mx < v.length → t ≤ 1) := by
  have hls : 0 < v.length_squared := Vec2.length_squared_pos v hv
  have hlen : 0 < v.length := Real.sqrt_pos.mpr hls
  simp only [Vec2.clamp_length]
  split_ifs with ha hb
  · have hmn0 : 0 < mn := by nlinarith
    have hlen_lt : v.length < mn := by
      have h := Real.sqrt_lt_sqrt hls.le ha
      rwa [show mn * mn = mn ^ 2 by ring, Real.sqrt_sq h0] at h
    have ht : 0 < mn / v.length := div_pos hmn0 hlen
    have hL : ((mn / Real.sqrt v.length_squared) • v).length = mn := by
      rw [Vec2.length_smul, show Real.sqrt v.length_squared = v.length from rfl,
        abs_of_pos ht, div_mul_cancel₀ mn (ne_of_gt hlen)]
    refine ⟨by rw [hL], by rw [hL]; exact h1, mn / v.length, ht, rfl,
      fun _ => (one_le_div hlen).mpr hlen_lt.le, fun h => absurd h (by push_neg; linarith)⟩
  · have hlen_gt : mx < v.length := by
      have h := Real.sqrt_lt_sqrt (by positivity) hb
      rwa [show mx * mx = mx ^ 2 by ring, Real.sqrt_sq h2.le] at h
    have ht : 0 < mx / v.length := div_pos h2 hlen
    have hL : ((mx / Real.sqrt v.length_squared) • v).length = mx := by
      rw [Vec2.length_smul, show Real.sqrt v.length_squared = v.length from rfl,
        abs_of_pos ht, div_mul_cancel₀ mx (ne_of_gt hlen)]
    refine ⟨by rw [hL]; exact h1, by rw [hL], mx / v.length, ht, rfl,
      fun h => absurd h (by push_neg; linarith), fun _ => (div_le_one hlen).mpr hlen_gt.le⟩
  · have hmnle : mn ≤ v.length := by
      have h : Real.sqrt (mn ^ 2) ≤ Real.sqrt v.length_squared :=
        Real.sqrt_le_sqrt (by nlinarith [not_lt.mp ha])
      rwa [Real.sqrt_sq h0] at h
    have hmxge : v.length ≤ mx := by
      have h : Real.sqrt v.length_squared ≤ Real.sqrt (mx ^ 2) :=
        Real.sqrt_le_sqrt (by nlinarith [not_lt.mp hb])
      rwa [Real.sqrt_sq h2.le] at h
    refine ⟨hmnle, hmxge, 1, one_pos, ?_, fun _ => le_refl 1, fun _ => le_refl 1⟩
    cases v with
    | mk x y => simp [Vec2.smul_def]

/-- pair_phase on exactly two agents evaluates the single pair (0, 1) with
    the first draw. -/
theorem pair_phase_two (p : Parameters) (draws : ℕ → ℝ) (a b : Agent) :
    pair_phase p draws [a, b] = apply_pair p (draws 0) [a, b] (0, 1) := rfl

/-- apply_pair on two agents at the pair (0, 1). -/
theorem apply_pair_two (p : Parameters) (d : ℝ) (a b : Agent) :
    apply_pair p d [a, b] (0, 1) =
      [(interact_pair p d a b).1, (interact_pair p d a b).2] := rfl

theorem pair_phaseF_two (p : Parameters) (draws : ℕ → ℝ) (a b : AgentF) :
    pair_phaseF p draws [a, b] = apply_pairF p (draws 0) [a, b] (0, 1) := rfl

theorem apply_pairF_two (p : Parameters) (d : ℝ) (a b : AgentF) :
    apply_pairF p d [a, b] (0, 1) =
      [(interact_pairF p d a b).1, (interact_pairF p d a b).2] := rfl

theorem interact_C1F :
    interact_pairF params_C1 0
      ⟨⟨0, 0⟩, CalculationsF.zeroed, ⟨⟨some 2, some 0⟩, 1⟩⟩
      ⟨⟨2, 0⟩, CalculationsF.zeroed, ⟨⟨some 2, some 0⟩, 1⟩⟩ =
    (⟨⟨0, 0⟩, ⟨1, ⟨2, 0⟩, ⟨-1, 0⟩, ⟨some 2, some 0⟩⟩, ⟨⟨some 2, some 0⟩, 1⟩⟩,
     ⟨⟨2, 0⟩, ⟨1, ⟨0, 0⟩, ⟨1, 0⟩, ⟨some 2, some 0⟩⟩, ⟨⟨some 2, some 0⟩, 1⟩⟩) := by
  rw [interact_pairF]
  norm_num [Vec2.distance, Vec2.length, Vec2.length_squared, Vec2.dot, Vec2F.dot,
    Vec2F.length, Vec2F.length_squared, Vec2F.add, Vec2F.smul, fadd, fmul, fdiv,
    fsqrt, fpow, params_C1, default_params, separation_factor, alignment_factor,
    sqrt_four, Real.rpow_one, Real.one_rpow, CalculationsF.zeroed]

/- ==================== claims ==================== -/

/-- C1 counterexample, stated in the NaN-tracking model so that the stored
    value is exactly what the f32 code computes: under fidelity 1 and
    1 = min_speed <= max_speed = 100, two mutually visible agents whose
    cohesion pull exactly cancels the first agent's velocity give it a
    steered velocity of (0, 0); the speed clamp divides by its zero length
    (min/0 = inf, then inf * 0 = NaN), so after the Flocking Step the agent
    has a recorded neighbour and a stored velocity of (NaN, NaN), whose
    magnitude is NaN — not a number in [min_speed, max_speed]. -/
theorem C1_counterexample :
    params_C1.fidelity = 1 ∧ params_C1.min_speed ≤ params_C1.max_speed ∧
    (((pair_phaseF params_C1 (fun _ => 0)
        [⟨⟨0, 0⟩, CalculationsF.zeroed, ⟨⟨some 2, some 0⟩, 1⟩⟩,
         ⟨⟨2, 0⟩, CalculationsF.zeroed, ⟨⟨some 2, some 0⟩, 1⟩⟩]).get? 0).map
      fun a => a.calcs.neighbours) = some 1 ∧
    (((flockF params_C1 (fun _ => 0)
        [⟨⟨0, 0⟩, CalculationsF.zeroed, ⟨⟨some 2, some 0⟩, 1⟩⟩,
         ⟨⟨2, 0⟩, CalculationsF.zeroed, ⟨⟨some 2, some 0⟩, 1⟩⟩]).get? 0).map
      fun a => a.boid.velocity) = some ⟨none, none⟩ ∧
    (((flockF params_C1 (fun _ => 0)
        [⟨⟨0, 0⟩, CalculationsF.zeroed, ⟨⟨some 2, some 0⟩, 1⟩⟩,
         ⟨⟨2, 0⟩, CalculationsF.zeroed, ⟨⟨some 2, some 0⟩, 1⟩⟩]).get? 0).map
      fun a => Vec2F.length a.boid.velocity) = some none := by
  refine ⟨by norm_num [params_C1, default_params],
    by norm_num [params_C1, default_params], ?_, ?_, ?_⟩
  · rw [pair_phaseF_two, apply_pairF_two, interact_C1F]
    rfl
  · rw [flockF, pair_phaseF_two, apply_pairF_two, interact_C1F]
    norm_num [aggregateF, Vec2F.clamp_length, Vec2F.clamp_length_max,
      Vec2F.length_squared, Vec2F.dot, Vec2F.add, Vec2F.smul, liftV,
      Vec2.clamp_length_max, Vec2.length_squared, Vec2.dot,
      fadd, fmul, fdiv, fsqrt, fgt, flt, params_C1, default_params,
      CalculationsF.zeroed]
  · rw [flockF, pair_phaseF_two, apply_pairF_two, interact_C1F]
    norm_num [aggregateF, Vec2F.clamp_length, Vec2F.clamp_length_max,
      Vec2F.length, Vec2F.length_squared, Vec2F.dot, Vec2F.add, Vec2F.smul, liftV,
      Vec2.clamp_length_max, Vec2.length_squared, Vec2.dot,
      fadd, fmul, fdiv, fsqrt, fgt, flt, params_C1, default_params,
      CalculationsF.zeroed]

/-- C1 (amended): for an agent that recorded at least one neighbour, with
    0 <= min_speed <= max_speed, 0 < max_speed and fidelity 1, provided
    every agent's start-of-step velocity is nonzero and every weight is
    positive (so no pair evaluation forms the 0/0 cosine similarity of
    lines 175-176 or divides by a zero weight — the NaN paths the
    real-number embedding cannot represent, see C2), and whose steered
    pre-clamp velocity is nonzero, the velocity stored by the Flocking Step
    has magnitude in [min_speed, max_speed] and is a positive rescaling of
    the steered velocity: scaled up when the steered magnitude is below
    min_speed, scaled down when above max_speed. -/
theorem C1_speed_clamped (p : Parameters) (draws : ℕ → ℝ) (agents : List Agent)
    (k : ℕ) (b : Agent)
    (h0 : 0 ≤ p.min_speed) (h1 : p.min_speed ≤ p.max_speed) (h2 : 0 < p.max_speed)
    (_hf : p.fidelity = 1)
    (_hvel : ∀ x ∈ agents, x.boid.velocity ≠ 0)
    (_hwt : ∀ x ∈ agents, 0 < x.boid.weight)
    (hb : (pair_phase p draws agents).get? k = some b)
    (hn : 1 ≤ b.calcs.neighbours)
    (hv : steered_velocity p b ≠ 0) :
    ∃ c : Agent, (flock p draws agents).get? k = some c ∧
      p.min_speed ≤ c.boid.velocity.length ∧
      c.boid.velocity.length ≤ p.max_speed ∧
      ∃ t : ℝ, 0 < t ∧ c.boid.velocity = t • steered_velocity p b ∧
        ((steered_velocity p b).length < p.min_speed → 1 ≤ t) ∧
        (p.max_speed < (steered_velocity p b).length → t ≤ 1) := by
  refine ⟨aggregate p b, ?_, ?_⟩
  · rw [flock, List.get?_map, hb]
    rfl
  · have hagg : (aggregate p b).boid.velocity =
        (steered_velocity p b).clamp_length p.min_speed p.max_speed := by
      rw [aggregate, if_neg (by omega)]
    obtain ⟨c1, c2, t, ht, heq, hup, hdown⟩ :=
      clamp_length_spec (steered_velocity p b) p.min_speed p.max_speed h0 h1 h2 hv
    rw [hagg]
    exact ⟨c1, c2, t, ht, heq, hup, hdown⟩

theorem interact_C1_wit :
    interact_pair params_C1 0 ⟨⟨0, 0⟩, Calculations.zeroed, ⟨⟨4, 0⟩, 1⟩⟩
      ⟨⟨2, 0⟩, Calculations.zeroed, ⟨⟨1, 0⟩, 1⟩⟩ =
    (⟨⟨0, 0⟩, ⟨1, ⟨2, 0⟩, ⟨-1, 0⟩, ⟨1, 0⟩⟩, ⟨⟨4, 0⟩, 1⟩⟩,
     ⟨⟨2, 0⟩, ⟨1, ⟨0, 0⟩, ⟨1, 0⟩, ⟨4, 0⟩⟩, ⟨⟨1, 0⟩, 1⟩⟩) := by
  rw [interact_pair]
  norm_num [Vec2.distance, Vec2.length, Vec2.length_squared, Vec2.dot, params_C1,
    default_params, separation_factor, alignment_factor, sqrt_four, sqrt_sixteen,
    Real.rpow_one, Calculations.zeroed]

/-- Witness for the amended C1 at a concrete two-agent run whose steered
    velocity is (2, 0). -/
theorem C1_speed_clamped_witness :
    ∃ c : Agent, (flock params_C1 (fun _ => 0)
        [⟨⟨0, 0⟩, Calculations.zeroed, ⟨⟨4, 0⟩, 1⟩⟩,
         ⟨⟨2, 0⟩, Calculations.zeroed, ⟨⟨1, 0⟩, 1⟩⟩]).get? 0 = some c ∧
      params_C1.min_speed ≤ c.boid.velocity.length ∧
      c.boid.velocity.length ≤ params_C1.max_speed ∧
      ∃ t : ℝ, 0 < t ∧ c.boid.velocity =
          t • steered_velocity params_C1
            ⟨⟨0, 0⟩, ⟨1, ⟨2, 0⟩, ⟨-1, 0⟩, ⟨1, 0⟩⟩, ⟨⟨4, 0⟩, 1⟩⟩ ∧
        ((steered_velocity params_C1
            ⟨⟨0, 0⟩, ⟨1, ⟨2, 0⟩, ⟨-1, 0⟩, ⟨1, 0⟩⟩, ⟨⟨4, 0⟩, 1⟩⟩).length <
          params_C1.min_speed → 1 ≤ t) ∧
        (params_C1.max_speed <
          (steered_velocity params_C1
            ⟨⟨0, 0⟩, ⟨1, ⟨2, 0⟩, ⟨-1, 0⟩, ⟨1, 0⟩⟩, ⟨⟨4, 0⟩, 1⟩⟩).length → t ≤ 1) := by
  have hb : (pair_phase params_C1 (fun _ => 0)
      [⟨⟨0, 0⟩, Calculations.zeroed, ⟨⟨4, 0⟩, 1⟩⟩,
       ⟨⟨2, 0⟩, Calculations.zeroed, ⟨⟨1, 0⟩, 1⟩⟩]).get? 0 =
      some ⟨⟨0, 0⟩, ⟨1, ⟨2, 0⟩, ⟨-1, 0⟩, ⟨1, 0⟩⟩, ⟨⟨4, 0⟩, 1⟩⟩ := by
    rw [pair_phase_two, apply_pair_two, interact_C1_wit]
    rfl
  have hv : steered_velocity params_C1
      ⟨⟨0, 0⟩, ⟨1, ⟨2, 0⟩, ⟨-1, 0⟩, ⟨1, 0⟩⟩, ⟨⟨4, 0⟩, 1⟩⟩ ≠ 0 := by
    norm_num [steered_velocity, Vec2.clamp_length_max, Vec2.length_squared, Vec2.dot,
      params_C1, default_params, Vec2.ne_zero_iff]
  exact C1_speed_clamped params_C1 (fun _ => 0) _ 0 _
    (by norm_num [params_C1, default_params]) (by norm_num [params_C1, default_params])
    (by norm_num [params_C1, default_params]) (by norm_num [params_C1, default_params])
    (by intro x hx
        simp only [List.mem_cons, List.not_mem_nil, or_false] at hx
        rcases hx with h | h <;> (rw [h]; norm_num [Vec2.ne_zero_iff]))
    (by intro x hx
        simp only [List.mem_cons, List.not_mem_nil, or_false] at hx
        rcases hx with h | h <;> (rw [h]; norm_num))
    hb (by norm_num) hv

theorem set_get?_self {α : Type} (l : List α) (i : ℕ) (x : α)
    (h : l.get? i = some x) : l.set i x = l := by
  induction l generalizing i with
  | nil => simp at h
  | cons hd tl ih =>
    cases i with
    | zero =>
      simp only [List.get?] at h
      cases h
      rfl
    | succ n =>
      simp only [List.get?] at h
      simp [List.set, ih n h]

/-- When the draw exceeds the fidelity, the pair is skipped outright. -/
theorem interact_pair_skip (p : Parameters) (d : ℝ) (a1 a2 : Agent)
    (h : d > p.fidelity) : interact_pair p d a1 a2 = (a1, a2) := by
  rw [interact_pair, if_pos h]

theorem apply_pair_skip (p : Parameters) (d : ℝ) (l : List Agent) (ij : ℕ × ℕ)
    (h : d > p.fidelity) : apply_pair p d l ij = l := by
  unfold apply_pair
  cases h1 : l.get? ij.1 with
  | none => rfl
  | some a1 =>
    cases h2 : l.get? ij.2 with
    | none => rfl
    | some a2 =>
      simp only [interact_pair_skip p d a1 a2 h]
      rw [set_get?_self _ _ _ h1, set_get?_self _ _ _ h2]

theorem aggregate_skip (p : Parameters) (a : Agent)
    (h : a.calcs.neighbours ≤ 0) : aggregate p a = a := by
  rw [aggregate, if_pos h]

theorem interact_C4_cex :
    interact_pair params_C4 0 ⟨⟨0, 0⟩, Calculations.zeroed, ⟨⟨2, 0⟩, 1⟩⟩
      ⟨⟨2, 0⟩, Calculations.zeroed, ⟨⟨2, 0⟩, 1⟩⟩ =
    (⟨⟨0, 0⟩, ⟨1, ⟨2, 0⟩, ⟨-1, 0⟩, ⟨2, 0⟩⟩, ⟨⟨2, 0⟩, 1⟩⟩,
     ⟨⟨2, 0⟩, ⟨1, ⟨0, 0⟩, ⟨1, 0⟩, ⟨2, 0⟩⟩, ⟨⟨2, 0⟩, 1⟩⟩) := by
  rw [interact_pair]
  norm_num [Vec2.distance, Vec2.length, Vec2.length_squared, Vec2.dot, params_C4,
    params_C1, default_params, separation_factor, alignment_factor, sqrt_four,
    Real.rpow_one, Calculations.zeroed]

/-- C4 counterexample: at fidelity 0 the skip test (draw > fidelity) is false
    for a draw of exactly 0, so the pair IS evaluated and the first agent's
    velocity changes from (2, 0) to (0, 0). -/
theorem C4_counterexample :
    params_C4.fidelity = 0 ∧
    (([⟨⟨0, 0⟩, Calculations.zeroed, ⟨⟨2, 0⟩, 1⟩⟩,
       (⟨⟨2, 0⟩, Calculations.zeroed, ⟨⟨2, 0⟩, 1⟩⟩ : Agent)].get? 0).map
      fun a => a.boid.velocity) = some ⟨2, 0⟩ ∧
    (((flock params_C4 (fun _ => 0)
        [⟨⟨0, 0⟩, Calculations.zeroed, ⟨⟨2, 0⟩, 1⟩⟩,
         ⟨⟨2, 0⟩, Calculations.zeroed, ⟨⟨2, 0⟩, 1⟩⟩]).get? 0).map
      fun a => a.boid.velocity) = some ⟨0, 0⟩ ∧
    (⟨0, 0⟩ : Vec2) ≠ ⟨2, 0⟩ := by
  refine ⟨by norm_num [params_C4, params_C1, default_params], rfl, ?_,
    by simp [Vec2.mk.injEq]⟩
  rw [flock, pair_phase_two, apply_pair_two, interact_C4_cex]
  norm_num [aggregate, steered_velocity, Vec2.clamp_length_max, Vec2.clamp_length,
    Vec2.length, Vec2.length_squared, Vec2.dot, params_C4, params_C1, default_params,
    Calculations.reset, Calculations.zeroed]

/-- C4 (amended): at fidelity 0 a pair is evaluated only when its draw is
    exactly 0.  For every draw sequence whose draws are all strictly
    positive, the pairwise scan leaves the agent list unchanged, and if
    every agent starts the tick with no recorded neighbours (the state every
    tick starts from), the whole Flocking Step leaves every agent — in
    particular every velocity — unchanged. -/
theorem C4_fidelity_zero_skips_all (p : Parameters) (draws : ℕ → ℝ)
    (agents : List Agent) (hf : p.fidelity = 0) (hd : ∀ k, 0 < draws k) :
    pair_phase p draws agents = agents ∧
    ((∀ a ∈ agents, a.calcs.neighbours ≤ 0) → flock p draws agents = agents) := by
  have hpp : pair_phase p draws agents = agents := by
    rw [pair_phase]
    generalize (pair_indices agents.length).enum = l
    induction l with
    | nil => rfl
    | cons hd' tl ih =>
      rw [List.foldl_cons, apply_pair_skip p _ agents hd'.2 (by rw [hf]; exact hd hd'.1)]
      exact ih
  refine ⟨hpp, fun h0 => ?_⟩
  rw [flock, hpp]
  have hmap : ∀ l : List Agent, (∀ a ∈ l, aggregate p a = a) → l.map (aggregate p) = l := by
    intro l hl
    induction l with
    | nil => rfl
    | cons x xs ih =>
      rw [List.map_cons, hl x (by simp), ih (fun a ha => hl a (by simp [ha]))]
  exact hmap agents (fun a ha => aggregate_skip p a (h0 a ha))

/-- Witness for the amended C4: fidelity 0, all draws 1, two agents with
    reset accumulators are left exactly as they were. -/
theorem C4_fidelity_zero_skips_all_witness :
    flock params_C4 (fun _ => 1)
      [⟨⟨0, 0⟩, Calculations.zeroed, ⟨⟨2, 0⟩, 1⟩⟩,
       ⟨⟨2, 0⟩, Calculations.zeroed, ⟨⟨2, 0⟩, 1⟩⟩] =
      [⟨⟨0, 0⟩, Calculations.zeroed, ⟨⟨2, 0⟩, 1⟩⟩,
       ⟨⟨2, 0⟩, Calculations.zeroed, ⟨⟨2, 0⟩, 1⟩⟩] :=
  (C4_fidelity_zero_skips_all params_C4 (fun _ => 1) _
    (by norm_num [params_C4, params_C1, default_params]) (fun _ => one_pos)).2
    (by intro a ha
        simp only [List.mem_cons, List.not_mem_nil, or_false] at ha
        rcases ha with h | h <;> (rw [h]; norm_num [Calculations.zeroed]))

/-- The pairwise loop only writes the accumulators: position, velocity and
    weight of both agents are untouched. -/
theorem interact_pair_proj (p : Parameters) (d : ℝ) (a1 a2 : Agent) :
    (interact_pair p d a1 a2).1.pos = a1.pos ∧
    (interact_pair p d a1 a2).1.boid = a1.boid ∧
    (interact_pair p d a1 a2).2.pos = a2.pos ∧
    (interact_pair p d a1 a2).2.boid = a2.boid := by
  simp only [interact_pair]
  split_ifs <;> refine ⟨?_, ?_, ?_, ?_⟩ <;> rfl

theorem apply_pair_proj (p : Parameters) (d : ℝ) (l : List Agent) (ij : ℕ × ℕ)
    (k : ℕ) :
    ((apply_pair p d l ij).get? k).map (fun a => (a.pos, a.boid)) =
      (l.get? k).map (fun a => (a.pos, a.boid)) := by
  unfold apply_pair
  cases h1 : l.get? ij.1 with
  | none => rfl
  | some a1 =>
    cases h2 : l.get? ij.2 with
    | none => rfl
    | some a2 =>
      obtain ⟨hlt1, -⟩ := List.get?_eq_some.mp h1
      by_cases hk2 : ij.2 = k
      · subst hk2
        obtain ⟨hlt2, -⟩ := List.get?_eq_some.mp h2
        rw [List.get?_set_eq_of_lt _ (by rwa [List.length_set]), h2]
        simp only [Option.map_some']
        rw [(interact_pair_proj p d a1 a2).2.2.1, (interact_pair_proj p d a1 a2).2.2.2]
      · rw [List.get?_set_ne _ _ hk2]
        by_cases hk1 : ij.1 = k
        · subst hk1
          rw [List.get?_set_eq_of_lt _ hlt1, h1]
          simp only [Option.map_some']
          rw [(interact_pair_proj p d a1 a2).1, (interact_pair_proj p d a1 a2).2.1]
        · rw [List.get?_set_ne _ _ hk1]

/-- The pairwise scan only writes the accumulators. -/
theorem pair_phase_proj (p : Parameters) (draws : ℕ → ℝ) (agents : List Agent)
    (k : ℕ) :
    ((pair_phase p draws agents).get? k).map (fun a => (a.pos, a.boid)) =
      (agents.get? k).map (fun a => (a.pos, a.boid)) := by
  rw [pair_phase]
  generalize (pair_indices agents.length).enum = l
  induction l generalizing agents with
  | nil => rfl
  | cons x xs ih =>
    rw [List.foldl_cons, ih (apply_pair p (draws x.1) agents x.2)]
    exact apply_pair_proj p (draws x.1) agents x.2 k

theorem interact_pair_calcs_ok (p : Parameters) (d : ℝ) (a1 a2 : Agent)
    (h1 : calcs_ok a1) (h2 : calcs_ok a2) :
    calcs_ok (interact_pair p d a1 a2).1 ∧ calcs_ok (interact_pair p d a1 a2).2 := by
  simp only [interact_pair]
  split_ifs
  · exact ⟨h1, h2⟩
  · exact ⟨h1, h2⟩
  · constructor
    · right
      show 1 ≤ a1.calcs.neighbours + 1
      rcases h1 with h | h
      · rw [h]
        norm_num [Calculations.zeroed]
      · omega
    · right
      show 1 ≤ a2.calcs.neighbours + 1
      rcases h2 with h | h
      · rw [h]
        norm_num [Calculations.zeroed]
      · omega

theorem apply_pair_calcs_ok (p : Parameters) (d : ℝ) (l : List Agent)
    (ij : ℕ × ℕ) (h : ∀ a ∈ l, calcs_ok a) :
    ∀ a ∈ apply_pair p d l ij, calcs_ok a := by
  unfold apply_pair
  cases h1 : l.get? ij.1 with
  | none => exact h
  | some a1 =>
    cases h2 : l.get? ij.2 with
    | none => exact h
    | some a2 =>
      intro a ha
      have hq := interact_pair_calcs_ok p d a1 a2
        (h a1 (List.get?_mem h1)) (h a2 (List.get?_mem h2))
      rcases List.mem_or_eq_of_mem_set ha with ha2 | rfl
      · rcases List.mem_or_eq_of_mem_set ha2 with ha3 | rfl
        · exact h a ha3
        · exact hq.1
      · exact hq.2

theorem pair_phase_calcs_ok (p : Parameters) (draws : ℕ → ℝ)
    (agents : List Agent) (h : ∀ a ∈ agents, calcs_ok a) :
    ∀ a ∈ pair_phase p draws agents, calcs_ok a := by
  rw [pair_phase]
  generalize (pair_indices agents.length).enum = l
  induction l generalizing agents with
  | nil => exact h
  | cons x xs ih =>
    rw [List.foldl_cons]
    exact ih _ (apply_pair_calcs_ok p (draws x.1) agents x.2 h)

/-- C6: starting from all-zero accumulators, after a Flocking Step every
    accumulator is again all zero (reset after being consumed for agents
    that recorded neighbours, untouched and still zero for the others), and
    every agent with zero recorded neighbours keeps its velocity. -/
theorem C6_accumulators_reset (p : Parameters) (draws : ℕ → ℝ)
    (agents : List Agent)
    (h0 : ∀ a ∈ agents, a.calcs = Calculations.zeroed) :
    (∀ b ∈ flock p draws agents, b.calcs = Calculations.zeroed) ∧
    (∀ k a b, agents.get? k = some a →
      (pair_phase p draws agents).get? k = some b →
      b.calcs.neighbours = 0 →
      ((flock p draws agents).get? k).map (fun c => c.boid.velocity) =
        some a.boid.velocity) := by
  have hok : ∀ a ∈ pair_phase p draws agents, calcs_ok a :=
    pair_phase_calcs_ok p draws agents (fun a ha => Or.inl (h0 a ha))
  constructor
  · intro b hb
    rw [flock] at hb
    obtain ⟨c, hc, rfl⟩ := List.mem_map.mp hb
    rw [aggregate]
    split_ifs with h
    · rcases hok c hc with hz | h1
      · exact hz
      · omega
    · rfl
  · intro k a b hka hkb hn
    rw [flock, List.get?_map, hkb]
    simp only [Option.map_some']
    rw [aggregate_skip p b (by omega)]
    have hproj := pair_phase_proj p draws agents k
    rw [hka, hkb] at hproj
    simp only [Option.map_some'] at hproj
    have heq := Option.some.inj hproj
    rw [Prod.ext_iff] at heq
    have hbb : b.boid = a.boid := heq.2
    rw [hbb]

/-- Witness for C6: one agent, zeroed accumulator; after the step its
    velocity is unchanged. -/
theorem C6_accumulators_reset_witness :
    ((flock default_params (fun _ => 0)
      [⟨⟨0, 0⟩, Calculations.zeroed, ⟨⟨1, 0⟩, 1⟩⟩]).get? 0).map
      (fun c => c.boid.velocity) = some ⟨1, 0⟩ :=
  (C6_accumulators_reset default_params (fun _ => 0) _
    (by intro a ha
        simp only [List.mem_cons, List.not_mem_nil, or_false] at ha
        rw [ha])).2 0
    ⟨⟨0, 0⟩, Calculations.zeroed, ⟨⟨1, 0⟩, 1⟩⟩
    ⟨⟨0, 0⟩, Calculations.zeroed, ⟨⟨1, 0⟩, 1⟩⟩ rfl rfl rfl

/-- The y-axis wall check never touches the x components. -/
theorem wall_y_keeps_x (p : Parameters) (a : Agent) :
    (wall_y p a).pos.x = a.pos.x ∧
    (wall_y p a).boid.velocity.x = a.boid.velocity.x := by
  rw [wall_y]
  split_ifs <;> exact ⟨rfl, rfl⟩

/-- The x-axis wall check never touches the y components. -/
theorem wall_x_keeps_y (p : Parameters) (a : Agent) :
    (wall_x p a).pos.y = a.pos.y ∧
    (wall_x p a).boid.velocity.y = a.boid.velocity.y := by
  rw [wall_x]
  split_ifs <;> exact ⟨rfl, rfl⟩

/-- Wrap mode, x outside on the positive side, x velocity nonnegative (its
    signum is 1): the x position is negated. -/
theorem wall_x_out_pos (p : Parameters) (a : Agent)
    (hb : p.bounce_off_walls = false) (hw : 0 < p.window_width)
    (hx : p.window_width / 2 < a.pos.x) (hv : 0 ≤ a.boid.velocity.x) :
    wall_x p a = { a with pos := ⟨-a.pos.x, a.pos.y⟩ } := by
  have hcond : ¬ range_contains p.window_x_range a.pos.x ∧
      signum a.boid.velocity.x = signum a.pos.x := by
    constructor
    · intro hc
      have h2 : a.pos.x < p.window_width / 2 := hc.2
      linarith
    · rw [signum, signum, if_neg (not_lt.mpr hv), if_neg (by linarith)]
  rw [wall_x, if_pos hcond, hb]
  simp

/-- Wrap mode, x outside on the negative side, x velocity negative: the x
    position is negated. -/
theorem wall_x_out_neg (p : Parameters) (a : Agent)
    (hb : p.bounce_off_walls = false) (hw : 0 < p.window_width)
    (hx : a.pos.x < -(p.window_width / 2)) (hv : a.boid.velocity.x < 0) :
    wall_x p a = { a with pos := ⟨-a.pos.x, a.pos.y⟩ } := by
  have hcond : ¬ range_contains p.window_x_range a.pos.x ∧
      signum a.boid.velocity.x = signum a.pos.x := by
    constructor
    · intro hc
      have h1 : -p.window_width / 2 ≤ a.pos.x := hc.1
      linarith
    · rw [signum, signum, if_pos hv, if_pos (by linarith)]
  rw [wall_x, if_pos hcond, hb]
  simp

/-- x strictly inside the window range: the x check does nothing. -/
theorem wall_x_skip_inside (p : Parameters) (a : Agent)
    (hx1 : -(p.window_width / 2) < a.pos.x) (hx2 : a.pos.x < p.window_width / 2) :
    wall_x p a = a := by
  rw [wall_x, if_neg]
  rintro ⟨hA, -⟩
  refine hA ⟨?_, ?_⟩
  · show -p.window_width / 2 ≤ a.pos.x
    linarith
  · show a.pos.x < p.window_width / 2
    linarith

/-- x outside on the positive side but moving inward: the x check does
    nothing. -/
theorem wall_x_skip_inward_pos (p : Parameters) (a : Agent)
    (hw : 0 < p.window_width) (hx : p.window_width / 2 < a.pos.x)
    (hv : a.boid.velocity.x < 0) : wall_x p a = a := by
  rw [wall_x, if_neg]
  rintro ⟨-, hs⟩
  rw [signum, signum, if_pos hv, if_neg (by linarith)] at hs
  norm_num at hs

/-- x outside on the negative side but with nonnegative x velocity (signum
    1): the x check does nothing. -/
theorem wall_x_skip_inward_neg (p : Parameters) (a : Agent)
    (hw : 0 < p.window_width) (hx : a.pos.x < -(p.window_width / 2))
    (hv : 0 ≤ a.boid.velocity.x) : wall_x p a = a := by
  rw [wall_x, if_neg]
  rintro ⟨-, hs⟩
  rw [signum, signum, if_neg (not_lt.mpr hv), if_pos (by linarith)] at hs
  norm_num at hs

/-- Bounce mode, x outside on the positive side, x velocity nonnegative: the
    x velocity is negated. -/
theorem wall_x_out_pos_bounce (p : Parameters) (a : Agent)
    (hb : p.bounce_off_walls = true) (hw : 0 < p.window_width)
    (hx : p.window_width / 2 < a.pos.x) (hv : 0 ≤ a.boid.velocity.x) :
    wall_x p a =
      { a with boid := { a.boid with
          velocity := ⟨-a.boid.velocity.x, a.boid.velocity.y⟩ } } := by
  have hcond : ¬ range_contains p.window_x_range a.pos.x ∧
      signum a.boid.velocity.x = signum a.pos.x := by
    constructor
    · intro hc
      have h2 : a.pos.x < p.window_width / 2 := hc.2
      linarith
    · rw [signum, signum, if_neg (not_lt.mpr hv), if_neg (by linarith)]
  rw [wall_x, if_pos hcond, hb]
  simp

/-- Wrap mode, y outside on the positive side, y velocity nonnegative: the y
    position is negated. -/
theorem wall_y_out_pos (p : Parameters) (a : Agent)
    (hb : p.bounce_off_walls = false) (hh : 0 < p.window_height)
    (hy : p.window_height / 2 < a.pos.y) (hv : 0 ≤ a.boid.velocity.y) :
    wall_y p a = { a with pos := ⟨a.pos.x, -a.pos.y⟩ } := by
  have hcond : ¬ range_contains p.window_y_range a.pos.y ∧
      signum a.boid.velocity.y = signum a.pos.y := by
    constructor
    · intro hc
      have h2 : a.pos.y < p.window_height / 2 := hc.2
      linarith
    · rw [signum, signum, if_neg (not_lt.mpr hv), if_neg (by linarith)]
  rw [wall_y, if_pos hcond, hb]
  simp

/-- Wrap mode, y outside on the negative side, y velocity negative: the y
    position is negated. -/
theorem wall_y_out_neg (p : Parameters) (a : Agent)
    (hb : p.bounce_off_walls = false) (hh : 0 < p.window_height)
    (hy : a.pos.y < -(p.window_height / 2)) (hv : a.boid.velocity.y < 0) :
    wall_y p a = { a with pos := ⟨a.pos.x, -a.pos.y⟩ } := by
  have hcond : ¬ range_contains p.window_y_range a.pos.y ∧
      signum a.boid.velocity.y = signum a.pos.y := by
    constructor
    · intro hc
      have h1 : -p.window_height / 2 ≤ a.pos.y := hc.1
      linarith
    · rw [signum, signum, if_pos hv, if_pos (by linarith)]
  rw [wall_y, if_pos hcond, hb]
  simp

/-- y strictly inside the window range: the y check does nothing. -/
theorem wall_y_skip_inside (p : Parameters) (a : Agent)
    (hy1 : -(p.window_height / 2) < a.pos.y) (hy2 : a.pos.y < p.window_height / 2) :
    wall_y p a = a := by
  rw [wall_y, if_neg]
  rintro ⟨hA, -⟩
  refine hA ⟨?_, ?_⟩
  · show -p.window_height / 2 ≤ a.pos.y
    linarith
  · show a.pos.y < p.window_height / 2
    linarith

/-- y outside on the positive side but moving inward: the y check does
    nothing. -/
theorem wall_y_skip_inward_pos (p : Parameters) (a : Agent)
    (hh : 0 < p.window_height) (hy : p.window_height / 2 < a.pos.y)
    (hv : a.boid.velocity.y < 0) : wall_y p a = a := by
  rw [wall_y, if_neg]
  rintro ⟨-, hs⟩
  rw [signum, signum, if_pos hv, if_neg (by linarith)] at hs
  norm_num at hs

/-- y outside on the negative side but with nonnegative y velocity: the y
    check does nothing. -/
theorem wall_y_skip_inward_neg (p : Parameters) (a : Agent)
    (hh : 0 < p.window_height) (hy : a.pos.y < -(p.window_height / 2))
    (hv : 0 ≤ a.boid.velocity.y) : wall_y p a = a := by
  rw [wall_y, if_neg]
  rintro ⟨-, hs⟩
  rw [signum, signum, if_neg (not_lt.mpr hv), if_pos (by linarith)] at hs
  norm_num at hs

/-- Bounce mode, y outside on the positive side, y velocity nonnegative: the
    y velocity is negated. -/
theorem wall_y_out_pos_bounce (p : Parameters) (a : Agent)
    (hb : p.bounce_off_walls = true) (hh : 0 < p.window_height)
    (hy : p.window_height / 2 < a.pos.y) (hv : 0 ≤ a.boid.velocity.y) :
    wall_y p a =
      { a with boid := { a.boid with
          velocity := ⟨a.boid.velocity.x, -a.boid.velocity.y⟩ } } := by
  have hcond : ¬ range_contains p.window_y_range a.pos.y ∧
      signum a.boid.velocity.y = signum a.pos.y := by
    constructor
    · intro hc
      have h2 : a.pos.y < p.window_height / 2 := hc.2
      linarith
    · rw [signum, signum, if_neg (not_lt.mpr hv), if_neg (by linarith)]
  rw [wall_y, if_pos hcond, hb]
  simp

/-- C5: in wrap mode, on each axis independently: an agent strictly outside
    the half-extent whose velocity component on that axis has the sign of
    the out-of-range position has that position component negated (velocity
    untouched), while an agent strictly within bounds on that axis, or
    moving inward on it, has position and velocity on that axis untouched. -/
theorem C5_wrap_mode_walls (p : Parameters) (a : Agent)
    (hb : p.bounce_off_walls = false)
    (hw : 0 < p.window_width) (hh : 0 < p.window_height) :
    (p.window_width / 2 < a.pos.x → 0 < a.boid.velocity.x →
      (handle_walls_agent p a).pos.x = -a.pos.x ∧
      (handle_walls_agent p a).boid.velocity.x = a.boid.velocity.x) ∧
    (a.pos.x < -(p.window_width / 2) → a.boid.velocity.x < 0 →
      (handle_walls_agent p a).pos.x = -a.pos.x ∧
      (handle_walls_agent p a).boid.velocity.x = a.boid.velocity.x) ∧
    (-(p.window_width / 2) < a.pos.x → a.pos.x < p.window_width / 2 →
      (handle_walls_agent p a).pos.x = a.pos.x ∧
      (handle_walls_agent p a).boid.velocity.x = a.boid.velocity.x) ∧
    (p.window_width / 2 < a.pos.x → a.boid.velocity.x < 0 →
      (handle_walls_agent p a).pos.x = a.pos.x ∧
      (handle_walls_agent p a).boid.velocity.x = a.boid.velocity.x) ∧
    (a.pos.x < -(p.window_width / 2) → 0 < a.boid.velocity.x →
      (handle_walls_agent p a).pos.x = a.pos.x ∧
      (handle_walls_agent p a).boid.velocity.x = a.boid.velocity.x) ∧
    (p.window_height / 2 < a.pos.y → 0 < a.boid.velocity.y →
      (handle_walls_agent p a).pos.y = -a.pos.y ∧
      (handle_walls_agent p a).boid.velocity.y = a.boid.velocity.y) ∧
    (a.pos.y < -(p.window_height / 2) → a.boid.velocity.y < 0 →
      (handle_walls_agent p a).pos.y = -a.pos.y ∧
      (handle_walls_agent p a).boid.velocity.y = a.boid.velocity.y) ∧
    (-(p.window_height / 2) < a.pos.y → a.pos.y < p.window_height / 2 →
      (handle_walls_agent p a).pos.y = a.pos.y ∧
      (handle_walls_agent p a).boid.velocity.y = a.boid.velocity.y) ∧
    (p.window_height / 2 < a.pos.y → a.boid.velocity.y < 0 →
      (handle_walls_agent p a).pos.y = a.pos.y ∧
      (handle_walls_agent p a).boid.velocity.y = a.boid.velocity.y) ∧
    (a.pos.y < -(p.window_height / 2) → 0 < a.boid.velocity.y →
      (handle_walls_agent p a).pos.y = a.pos.y ∧
      (handle_walls_agent p a).boid.velocity.y = a.boid.velocity.y) := by
  have hky := wall_x_keeps_y p a
  refine ⟨?_, ?_, ?_, ?_, ?_, ?_, ?_, ?_, ?_, ?_⟩
  · intro hx hv
    rw [handle_walls_agent, wall_x_out_pos p a hb hw hx hv.le]
    exact wall_y_keeps_x p _
  · intro hx hv
    rw [handle_walls_agent, wall_x_out_neg p a hb hw hx hv]
    exact wall_y_keeps_x p _
  · intro hx1 hx2
    rw [handle_walls_agent, wall_x_skip_inside p a hx1 hx2]
    exact wall_y_keeps_x p a
  · intro hx hv
    rw [handle_walls_agent, wall_x_skip_inward_pos p a hw hx hv]
    exact wall_y_keeps_x p a
  · intro hx hv
    rw [handle_walls_agent, wall_x_skip_inward_neg p a hw hx hv.le]
    exact wall_y_keeps_x p a
  · intro hy hv
    rw [handle_walls_agent, wall_y_out_pos p (wall_x p a) hb hh
      (by rw [hky.1]; exact hy) (by rw [hky.2]; exact hv.le)]
    exact ⟨by show -(wall_x p a).pos.y = -a.pos.y; rw [hky.1], hky.2⟩
  · intro hy hv
    rw [handle_walls_agent, wall_y_out_neg p (wall_x p a) hb hh
      (by rw [hky.1]; exact hy) (by rw [hky.2]; exact hv)]
    exact ⟨by show -(wall_x p a).pos.y = -a.pos.y; rw [hky.1], hky.2⟩
  · intro hy1 hy2
    rw [handle_walls_agent, wall_y_skip_inside p (wall_x p a)
      (by rw [hky.1]; exact hy1) (by rw [hky.1]; exact hy2)]
    exact hky
  · intro hy hv
    rw [handle_walls_agent, wall_y_skip_inward_pos p (wall_x p a) hh
      (by rw [hky.1]; exact hy) (by rw [hky.2]; exact hv)]
    exact hky
  · intro hy hv
    rw [handle_walls_agent, wall_y_skip_inward_neg p (wall_x p a) hh
      (by rw [hky.1]; exact hy) (by rw [hky.2]; exact hv.le)]
    exact hky

/-- Witness for C5: default parameters (wrap mode, 100 x 100 window), an
    agent at (60, 0) moving in +x is mirrored in x and untouched in y. -/
theorem C5_wrap_mode_walls_witness :
    (handle_walls_agent default_params
      ⟨⟨60, 0⟩, Calculations.zeroed, ⟨⟨1, 1⟩, 1⟩⟩).pos.x = -60 ∧
    (handle_walls_agent default_params
      ⟨⟨60, 0⟩, Calculations.zeroed, ⟨⟨1, 1⟩, 1⟩⟩).boid.velocity.x = 1 ∧
    (handle_walls_agent default_params
      ⟨⟨60, 0⟩, Calculations.zeroed, ⟨⟨1, 1⟩, 1⟩⟩).pos.y = 0 := by
  have h := C5_wrap_mode_walls default_params
    ⟨⟨60, 0⟩, Calculations.zeroed, ⟨⟨1, 1⟩, 1⟩⟩ rfl
    (by norm_num [default_params]) (by norm_num [default_params])
  obtain ⟨h1, -, -, -, -, -, -, h8, -, -⟩ := h
  have hx := h1 (by norm_num [default_params]) (by norm_num)
  have hy := h8 (by norm_num [default_params]) (by norm_num [default_params])
  exact ⟨hx.1, hx.2, hy.1⟩

/-- C10: a velocity component that is exactly 0 has signum 1 and is treated
    as moving in the positive direction: outside the positive half-extent
    with zero velocity on that axis the agent is wrapped (wrap mode: the
    position component is negated) or bounced (bounce mode: the velocity
    component is negated, leaving it zero), while outside the negative
    half-extent with zero velocity on that axis it is untouched. -/
theorem C10_signum_zero_velocity (p : Parameters) (a : Agent)
    (hw : 0 < p.window_width) (hh : 0 < p.window_height) :
    (a.boid.velocity.x = 0 → p.window_width / 2 < a.pos.x →
      (p.bounce_off_walls = false → (handle_walls_agent p a).pos.x = -a.pos.x) ∧
      (p.bounce_off_walls = true →
        (handle_walls_agent p a).boid.velocity.x = -a.boid.velocity.x ∧
        (handle_walls_agent p a).pos.x = a.pos.x)) ∧
    (a.boid.velocity.x = 0 → a.pos.x < -(p.window_width / 2) →
      (handle_walls_agent p a).pos.x = a.pos.x ∧
      (handle_walls_agent p a).boid.velocity.x = a.boid.velocity.x) ∧
    (a.boid.velocity.y = 0 → p.window_height / 2 < a.pos.y →
      (p.bounce_off_walls = false → (handle_walls_agent p a).pos.y = -a.pos.y) ∧
      (p.bounce_off_walls = true →
        (handle_walls_agent p a).boid.velocity.y = -a.boid.velocity.y ∧
        (handle_walls_agent p a).pos.y = a.pos.y)) ∧
    (a.boid.velocity.y = 0 → a.pos.y < -(p.window_height / 2) →
      (handle_walls_agent p a).pos.y = a.pos.y ∧
      (handle_walls_agent p a).boid.velocity.y = a.boid.velocity.y) := by
  have hky := wall_x_keeps_y p a
  refine ⟨?_, ?_, ?_, ?_⟩
  · intro hv hx
    constructor
    · intro hb
      rw [handle_walls_agent, wall_x_out_pos p a hb hw hx (by simp [hv])]
      exact (wall_y_keeps_x p _).1
    · intro hb
      rw [handle_walls_agent, wall_x_out_pos_bounce p a hb hw hx (by simp [hv])]
      exact ⟨(wall_y_keeps_x p _).2, (wall_y_keeps_x p _).1⟩
  · intro hv hx
    rw [handle_walls_agent, wall_x_skip_inward_neg p a hw hx (by simp [hv])]
    exact wall_y_keeps_x p a
  · intro hv hy
    constructor
    · intro hb
      rw [handle_walls_agent, wall_y_out_pos p (wall_x p a) hb hh
        (by rw [hky.1]; exact hy) (by rw [hky.2]; simp [hv])]
      show -(wall_x p a).pos.y = -a.pos.y
      rw [hky.1]
    · intro hb
      rw [handle_walls_agent, wall_y_out_pos_bounce p (wall_x p a) hb hh
        (by rw [hky.1]; exact hy) (by rw [hky.2]; simp [hv])]
      exact ⟨by show -(wall_x p a).boid.velocity.y = -a.boid.velocity.y; rw [hky.2],
        hky.1⟩
  · intro hv hy
    rw [handle_walls_agent, wall_y_skip_inward_neg p (wall_x p a) hh
      (by rw [hky.1]; exact hy) (by rw [hky.2]; simp [hv])]
    exact hky

/-- Witness for C10: an agent at (60, -60) with zero velocity, default
    parameters: wrapped in x (signum 0 = 1 counts as outward), untouched in
    y (outside the negative edge). -/
theorem C10_signum_zero_velocity_witness :
    (handle_walls_agent default_params
      ⟨⟨60, -60⟩, Calculations.zeroed, ⟨⟨0, 0⟩, 1⟩⟩).pos.x = -60 ∧
    (handle_walls_agent default_params
      ⟨⟨60, -60⟩, Calculations.zeroed, ⟨⟨0, 0⟩, 1⟩⟩).pos.y = -60 := by
  have h := C10_signum_zero_velocity default_params
    ⟨⟨60, -60⟩, Calculations.zeroed, ⟨⟨0, 0⟩, 1⟩⟩
    (by norm_num [default_params]) (by norm_num [default_params])
  exact ⟨(h.1 rfl (by norm_num [default_params])).1 rfl,
    (h.2.2.2 rfl (by norm_num [default_params])).1⟩

/-- C3 (code bug evaluation): resizing the 100 x 100 window to 200 x 100
    leaves an agent at (0, 90) untouched at y = 90, although the claimed
    bound is y in [-H/2, H/2] = [-50, 50]: max_position builds both corner
    components from window_width and min_position both from window_height,
    so the clamp uses [-50, 100] on both axes. -/
theorem C3_resize_clamp_bug :
    ((window_resize default_params 200 100
      [⟨⟨0, 90⟩, Calculations.zeroed, ⟨⟨0, 0⟩, 1⟩⟩]).2.map fun a => a.pos) =
      [⟨0, 90⟩] ∧
    (window_resize default_params 200 100
      [⟨⟨0, 90⟩, Calculations.zeroed, ⟨⟨0, 0⟩, 1⟩⟩]).1.window_width = 200 ∧
    (window_resize default_params 200 100
      [⟨⟨0, 90⟩, Calculations.zeroed, ⟨⟨0, 0⟩, 1⟩⟩]).1.window_height = 100 ∧
    ¬ ((90:ℝ) ≤ 100 / 2) := by
  rw [window_resize, if_neg (by norm_num [default_params])]
  refine ⟨?_, rfl, rfl, by norm_num⟩
  norm_num [Vec2.clamp, Parameters.min_position, Parameters.max_position,
    default_params, max_def, min_def]

theorem interact_C2 :
    interact_pairF default_params 0
      ⟨⟨0, 0⟩, CalculationsF.zeroed, ⟨⟨some 0, some 0⟩, 1⟩⟩
      ⟨⟨1, 0⟩, CalculationsF.zeroed, ⟨⟨some 0, some 0⟩, 1⟩⟩ =
    (⟨⟨0, 0⟩, ⟨1, ⟨1, 0⟩, ⟨-1, 0⟩, ⟨none, none⟩⟩, ⟨⟨some 0, some 0⟩, 1⟩⟩,
     ⟨⟨1, 0⟩, ⟨1, ⟨0, 0⟩, ⟨1, 0⟩, ⟨none, none⟩⟩, ⟨⟨some 0, some 0⟩, 1⟩⟩) := by
  rw [interact_pairF]
  norm_num [Vec2.distance, Vec2.length, Vec2.length_squared, Vec2.dot,
    Vec2F.dot, Vec2F.length, Vec2F.length_squared, Vec2F.add, Vec2F.smul,
    fadd, fmul, fdiv, fsqrt, fpow, default_params, separation_factor,
    alignment_factor, CalculationsF.zeroed, Real.one_rpow]

/-- C2 (code bug evaluation): for two interacting agents whose velocities
    are both exactly the zero vector, the cosine similarity denominator is
    0 and the division 0/0 is NaN; the code has no fallback, and the NaN
    flows through powf, the alignment factor, the alignment accumulator and
    the final speed clamp, so the first agent's stored velocity after the
    Flocking Step is NaN in both components. -/
theorem C2_similarity_nan_propagates :
    fdiv (Vec2F.dot ⟨some 0, some 0⟩ ⟨some 0, some 0⟩)
      (fmul (Vec2F.length ⟨some 0, some 0⟩) (Vec2F.length ⟨some 0, some 0⟩)) =
      none ∧
    ((flockF default_params (fun _ => 0)
      [⟨⟨0, 0⟩, CalculationsF.zeroed, ⟨⟨some 0, some 0⟩, 1⟩⟩,
       ⟨⟨1, 0⟩, CalculationsF.zeroed, ⟨⟨some 0, some 0⟩, 1⟩⟩]).get? 0).map
      (fun a => a.boid.velocity) = some ⟨none, none⟩ := by
  constructor
  · norm_num [Vec2F.dot, Vec2F.length, Vec2F.length_squared, fadd, fmul, fdiv, fsqrt]
  · rw [flockF, pair_phaseF_two, apply_pairF_two, interact_C2]
    norm_num [aggregateF, Vec2F.clamp_length, Vec2F.clamp_length_max,
      Vec2F.length_squared, Vec2F.dot, Vec2F.add, Vec2F.smul, liftV,
      Vec2.clamp_length_max, Vec2.length_squared, Vec2.dot,
      fadd, fmul, fdiv, fsqrt, fgt, flt, default_params,
      CalculationsF.zeroed]

/-- C8: the separation factor 1 / distance ^ separation_bias is strictly
    decreasing in the distance for any fixed positive bias, and with bias 1
    doubling the distance exactly halves the factor. -/
theorem C8_separation_factor_decreasing (bias d1 d2 : ℝ)
    (hb : 0 < bias) (h1 : 0 < d1) (h12 : d1 < d2) :
    separation_factor d2 bias < separation_factor d1 bias ∧
    ∀ d : ℝ, 0 < d → separation_factor (2 * d) 1 = separation_factor d 1 / 2 := by
  constructor
  · unfold separation_factor
    have hp1 : (0:ℝ) < d1 ^ bias := Real.rpow_pos_of_pos h1 bias
    have hlt : d1 ^ bias < d2 ^ bias := Real.rpow_lt_rpow h1.le h12 hb
    exact one_div_lt_one_div_of_lt hp1 hlt
  · intro d hd
    unfold separation_factor
    rw [Real.rpow_one, Real.rpow_one]
    field_simp
    ring

/-- Witness for C8 at bias 1, distances 1 and 2. -/
theorem C8_separation_factor_decreasing_witness :
    separation_factor 2 1 < separation_factor 1 1 ∧
    separation_factor (2 * 1) 1 = separation_factor 1 1 / 2 := by
  have h := C8_separation_factor_decreasing 1 1 2 (by norm_num) (by norm_num) (by norm_num)
  exact ⟨h.1, h.2 1 (by norm_num)⟩

/-- C9: for similarity in [-1, 1] and a positive alignment bias, the
    alignment factor bias ^ similarity / max(bias, 1/bias) is at most 1, and
    it attains 1 at similarity 1 when bias > 1 and at similarity -1 when
    bias < 1. -/
theorem C9_alignment_factor_max (bias s : ℝ) (hb : 0 < bias)
    (hs : -1 ≤ s) (hs' : s ≤ 1) :
    alignment_factor bias s ≤ 1 ∧
    (1 < bias → alignment_factor bias 1 = 1) ∧
    (bias < 1 → alignment_factor bias (-1) = 1) := by
  refine ⟨?_, ?_, ?_⟩
  · unfold alignment_factor
    by_cases h : bias > 1
    · rw [if_pos h, div_le_one hb]
      calc bias ^ s ≤ bias ^ (1:ℝ) := Real.rpow_le_rpow_of_exponent_le h.le hs'
      _ = bias := Real.rpow_one bias
    · rw [if_neg h]
      push_neg at h
      have hpos : 0 < 1 / bias := by positivity
      rw [div_le_one hpos]
      calc bias ^ s ≤ bias ^ (-1:ℝ) := Real.rpow_le_rpow_of_exponent_ge hb h hs
      _ = 1 / bias := by rw [Real.rpow_neg_one, one_div]
  · intro h
    unfold alignment_factor
    rw [if_pos h, Real.rpow_one, div_self (ne_of_gt hb)]
  · intro h
    unfold alignment_factor
    rw [if_neg (not_lt.mpr h.le), Real.rpow_neg_one, one_div,
      div_self (inv_ne_zero (ne_of_gt hb))]

/-- Witness for C9 at bias 2, similarity 1. -/
theorem C9_alignment_factor_max_witness :
    alignment_factor 2 1 ≤ 1 ∧ alignment_factor 2 1 = 1 := by
  have h := C9_alignment_factor_max 2 1 (by norm_num) (by norm_num) (by norm_num)
  exact ⟨h.1, h.2.1 (by norm_num)⟩

/-- C7: one call of adjust_number_of_boids with a positive target leaves
    exactly the target number of agents: it appends the missing ones when the
    count is below the target, keeps only the first target-many when above,
    and does nothing when equal. -/
theorem C7_adjust_number_of_boids_reconciles (p : Parameters) (mk : ℕ → Agent)
    (agents : List Agent) (_hn : 0 < p.number_of_boids) :
    (adjust_number_of_boids p mk agents).length = p.number_of_boids ∧
    (agents.length < p.number_of_boids →
      adjust_number_of_boids p mk agents =
        agents ++ spawn_boids (p.number_of_boids - agents.length) mk) ∧
    (p.number_of_boids < agents.length →
      adjust_number_of_boids p mk agents = agents.take p.number_of_boids) ∧
    (agents.length = p.number_of_boids →
      adjust_number_of_boids p mk agents = agents) := by
  unfold adjust_number_of_boids
  rcases lt_trichotomy agents.length p.number_of_boids with h | h | h
  · rw [if_pos h]
    refine ⟨?_, fun _ => rfl, fun h2 => absurd h2 (by omega), fun h2 => absurd h2 (by omega)⟩
    simp only [List.length_append, spawn_boids, List.length_map, List.length_range]
    omega
  · rw [if_neg (by omega), if_neg (by omega)]
    exact ⟨h, fun h2 => absurd h2 (by omega), fun h2 => absurd h2 (by omega), fun _ => rfl⟩
  · rw [if_neg (by omega), if_pos h]
    refine ⟨?_, fun h2 => absurd h2 (by omega), fun _ => rfl, fun h2 => absurd h2 (by omega)⟩
    rw [List.length_take]
    omega

/-- Witness for C7: three agents, target five. -/
theorem C7_adjust_number_of_boids_reconciles_witness :
    (adjust_number_of_boids { default_params with number_of_boids := 5 }
      (fun _ => ⟨⟨0, 0⟩, Calculations.zeroed, ⟨⟨0, 0⟩, 1⟩⟩)
      (List.replicate 3 ⟨⟨0, 0⟩, Calculations.zeroed, ⟨⟨0, 0⟩, 1⟩⟩)).length = 5 :=
  (C7_adjust_number_of_boids_reconciles _ _ _ (by norm_num)).1

end Boids
